import Mathlib

/-!
# Verification of the batch scan / routing handler

A shallow embedding of `src/var/task/handler.py`: the ClamAV report parser
(`run_scan`), the tag merger (`update_tags`), the mover (`move_and_tag_files`)
and the batch-resolution / aggregation / routing logic of the `handler`
function in scan mode.  Strings from the Python side are modelled as
`List Char`; per-key storage and scanner effects are passed in explicitly as
functions, and exceptions are modelled with `Except`.
-/

set_option maxRecDepth 8000

namespace CatsClamav

/-! ## Python string primitives used by the handler

The splitting and replacing loops consume at least one character per step, so
they are written with an explicit fuel initialised to the string length; the
fuel never runs out, and keeps the definitions structurally recursive (hence
kernel-computable on concrete inputs). -/

/-- Characters removed by Python's `str.strip()` (the ASCII whitespace set). -/
def isPySpace (c : Char) : Bool :=
  c = ' ' || c = '\t' || c = '\n' || c = '\r' || c = '\x0b' || c = '\x0c'

/-- Python `s.strip()`: remove leading and trailing whitespace. -/
def pyStrip (s : List Char) : List Char :=
  ((s.dropWhile isPySpace).reverse.dropWhile isPySpace).reverse

/-- Python `s.endswith(suffix)`. -/
def pyEndsWith (s suf : List Char) : Bool :=
  suf.isSuffixOf s

/-- Python `s.split(sep)` for a non-empty separator `sep`: split at each
non-overlapping, leftmost occurrence of `sep`, keeping empty pieces.
`acc` holds the (reversed) characters of the piece currently being read. -/
def pySplitAux (sep : List Char) : Nat → List Char → List Char → List (List Char)
  | _, [], acc => [acc.reverse]
  | 0, s, acc => [acc.reverse ++ s]
  | fuel + 1, c :: rest, acc =>
    if sep ≠ [] ∧ sep.isPrefixOf (c :: rest) then
      acc.reverse :: pySplitAux sep fuel (rest.drop (sep.length - 1)) []
    else
      pySplitAux sep fuel rest (c :: acc)

/-- Python `s.split(sep)` (non-empty `sep`). -/
def pySplit (sep s : List Char) : List (List Char) :=
  pySplitAux sep s.length s []

/-- Python `s.replace(pat, rep)` for a non-empty pattern: replace every
non-overlapping, leftmost occurrence of `pat` by `rep`. -/
def pyReplaceAux (pat rep : List Char) : Nat → List Char → List Char
  | _, [] => []
  | 0, s => s
  | fuel + 1, c :: rest =>
    if pat ≠ [] ∧ pat.isPrefixOf (c :: rest) then
      rep ++ pyReplaceAux pat rep fuel (rest.drop (pat.length - 1))
    else
      c :: pyReplaceAux pat rep fuel rest

/-- Python `s.replace(pat, rep)` (non-empty `pat`). -/
def pyReplace (pat rep s : List Char) : List Char :=
  pyReplaceAux pat rep s.length s

/-! ## `run_scan`: ClamAV exit-status handling and report parsing -/

/-- The `" FOUND"` marker searched for in the clamscan report. -/
def foundMarker : List Char := " FOUND".toList

/-- One line of the report, as parsed inside the `try` of `run_scan`:
`line.split(': ')[1].replace(' FOUND', '').strip()`.  The result is `none`
exactly when `line.split(': ')[1]` raises `IndexError` (fewer than two
segments), which the source swallows with `pass`. -/
def parseFoundLine (line : List Char) : Option (List Char) :=
  match pySplit (": ".toList) line with
  | _ :: seg :: _ => some (pyStrip (pyReplace foundMarker [] seg))
  | _ => none

/-- The virus-name extraction loop of `run_scan`: scan the report's lines in
order; the first line whose stripped form ends in `" FOUND"` *and* parses
supplies the name (then `break`); matching lines that fail to parse are
skipped (`except: pass`); if no line yields a name the placeholder
`"Unknown"` is used. -/
def extractVirusName (stdout : List Char) : List Char :=
  match (pySplit ['\n'] stdout).findSome? (fun line =>
      if pyEndsWith (pyStrip line) foundMarker then parseFoundLine line
      else none) with
  | some name => name
  | none => "Unknown".toList

/-- `run_scan`, given the scanner process result `(exit_code, stdout, stderr)`:
exit status `0` is clean, exit status `1` is infected with the extracted
signature name, anything else raises (modelled as `Except.error` carrying the
exception message). -/
def run_scan (exit_code : Int) (stdout stderr : List Char) :
    Except (List Char) (String × Option (List Char)) :=
  if exit_code = 0 then .ok ("clean", none)
  else if exit_code = 1 then .ok ("infected", some (extractVirusName stdout))
  else .error ("ClamAV scan error. Exit code: ".toList ++ (toString exit_code).toList
      ++ ". STDERR: ".toList ++ stderr)

/-- Drop the suffix `pat` from `s` when present. -/
def dropSuffixList (pat s : List Char) : List Char :=
  if pat.isSuffixOf s then s.take (s.length - pat.length) else s

/-- The text after the first occurrence of `sep` in `s`, or `none` when `sep`
does not occur. -/
def afterFirst (sep : List Char) : List Char → Option (List Char)
  | [] => none
  | c :: rest =>
    if sep ≠ [] ∧ sep.isPrefixOf (c :: rest) then some (rest.drop (sep.length - 1))
    else afterFirst sep rest

/-- Modelled from the claim's words, for comparison with `extractVirusName`:
the signature name is obtained by finding the line ending in the
case-sensitive marker `" FOUND"` and taking the text between the first
colon-space and that marker, degrading to the placeholder `"Unknown"` when
parsing fails. -/
def specVirusName (stdout : List Char) : List Char :=
  match (pySplit ['\n'] stdout).find? (fun line => pyEndsWith line foundMarker) with
  | some line =>
    match afterFirst (": ".toList) (dropSuffixList foundMarker line) with
    | some text => text
    | none => "Unknown".toList
  | none => "Unknown".toList

/-- Modelled from the amended claim's words, for comparison with
`extractVirusName`: scan the report's lines in order; for each line whose
whitespace-stripped form ends in the case-sensitive marker `" FOUND"`, split
the line on colon-space; if it has at least two segments the name is the
second segment with every occurrence of `" FOUND"` removed and surrounding
whitespace stripped, and the search stops; matching lines without a
colon-space are skipped; if no line yields a name, `"Unknown"` is used. -/
def specVirusNameAmended (stdout : List Char) : List Char :=
  let names := (pySplit ['\n'] stdout).filterMap (fun line =>
    if pyEndsWith (pyStrip line) foundMarker then
      ((pySplit (": ".toList) line).get? 1).map
        (fun seg => pyStrip (pyReplace foundMarker [] seg))
    else none)
  names.headD "Unknown".toList

/-! ## Tags and `update_tags` -/

/-- A `botocore.exceptions.ClientError`, identified by its error code
(`e.response['Error']['Code']`). -/
structure S3Err where
  code : String
deriving DecidableEq

/-- The codes `move_and_tag_files` treats as "source object not found":
`e.response['Error']['Code'] in ['404', 'NoSuchKey']`. -/
def isNotFoundCode (e : S3Err) : Bool :=
  e.code = "404" || e.code = "NoSuchKey"

/-- One `{'Key': ..., 'Value': ...}` entry of an S3 tag set. -/
abbrev Tag := String × List Char

/-- A scan verdict as recorded in `scan_results_map`: the status string
(`"clean"`, `"infected"` or `"error"`) and the optional detail. -/
abbrev Verdict := String × Option (List Char)

/-- Python truthiness of the optional `detail` argument (`None` and the
empty string are falsy). -/
def truthy : Option (List Char) → Bool
  | none => false
  | some d => !d.isEmpty

/-- `detail.replace('\n', ' ').replace('\r', ' ')` from `update_tags`. -/
def sanitizeDetail (d : List Char) : List Char :=
  pyReplace ['\r'] [' '] (pyReplace ['\n'] [' '] d)

/-- The `additional_tags` dict of `update_tags`, in insertion order:
`scan-result` and `scan-time` always; `virus-name` when infected with a
truthy detail; `scan-error` (newline-stripped, truncated to 250 characters)
when errored with a truthy detail. -/
def additionalTags (status : String) (scan_time : List Char)
    (detail : Option (List Char)) : List Tag :=
  let base : List Tag := [("scan-result", status.toList), ("scan-time", scan_time)]
  if status = "infected" ∧ truthy detail = true then
    base ++ [("virus-name", detail.getD [])]
  else if status = "error" ∧ truthy detail = true then
    base ++ [("scan-error", (sanitizeDetail (detail.getD [])).take 250)]
  else base

/-- The merge step of `update_tags`: keep the existing tags whose key does
not collide with a new tag key (`t['Key'] not in additional_tags`), then
append the new tags. -/
def mergeTags (tags add : List Tag) : List Tag :=
  tags.filter (fun t => decide (t.1 ∉ add.map Prod.fst)) ++ add

/-- The tag set written back by `update_tags`, as a function of the outcome
of `get_object_tagging`: a successful read supplies the existing tags, and
*any* `ClientError` on the read (`NoSuchTaggingSet` or otherwise) makes the
existing tags default to the empty list before the merge. -/
def update_tags_written (getRes : Except S3Err (List Tag)) (status : String)
    (scan_time : List Char) (detail : Option (List Char)) : List Tag :=
  let tags := match getRes with
    | .ok ts => ts
    | .error _ => []
  mergeTags tags (additionalTags status scan_time detail)

/-! ## `move_and_tag_files` -/

/-- The storage operations used by the router, as per-key effect functions;
an `Except.error` models that call raising a `ClientError`. -/
structure RouterEffects where
  copy_object : String → Except S3Err Unit
  delete_object : String → Except S3Err Unit
  get_object_tagging : String → Except S3Err (List Tag)
  put_object_tagging : String → List Tag → Except S3Err Unit

/-- `update_tags` as called at the destination: read the existing tags
(tolerating any read failure as an empty tag set), merge, and write back;
only the final `put_object_tagging` can raise out of `update_tags`. -/
def update_tags (fx : RouterEffects) (scan_time : List Char) (key : String)
    (v : Verdict) : Except S3Err Unit :=
  fx.put_object_tagging key
    (update_tags_written (fx.get_object_tagging key) v.1 scan_time v.2)

/-- The body of the per-key `try` block of `move_and_tag_files`:
copy, then delete, then tag, stopping at the first raised `ClientError`. -/
def moveOneKeyOps (fx : RouterEffects) (scan_time : List Char) (key : String)
    (v : Verdict) : Except S3Err Unit := do
  fx.copy_object key
  fx.delete_object key
  update_tags fx scan_time key v

/-- What `move_and_tag_files` does with one key: completed silently, logged
as already processed by a concurrent invocation, or logged as FATAL.  In all
three cases the loop continues with the next key. -/
inductive KeyOutcome
  | completed
  | skippedConcurrent (code : String)
  | fatal (code : String)
deriving DecidableEq

/-- One iteration of the `move_and_tag_files` loop: the `except` clause
classifies a raised `ClientError` by its code. -/
def moveOneKey (fx : RouterEffects) (scan_time : List Char) (key : String)
    (v : Verdict) : KeyOutcome :=
  match moveOneKeyOps fx scan_time key v with
  | .ok _ => .completed
  | .error e => if isNotFoundCode e then .skippedConcurrent e.code else .fatal e.code

/-- `move_and_tag_files`: process every entry of `scan_results_map`,
recording each key's outcome. -/
def move_and_tag_files (fx : RouterEffects) (scan_time : List Char)
    (scan_results : List (String × Verdict)) : List (String × KeyOutcome) :=
  scan_results.map (fun kv => (kv.1, moveOneKey fx scan_time kv.1 kv.2))

/-! ## The `handler` scan-mode pipeline -/

/-- The commit-marker suffix `'_commit.json'`. -/
def commitSuffix : List Char := "_commit.json".toList

/-- `object_key.endswith('_commit.json')`. -/
def isCommitKey (k : String) : Bool := pyEndsWith k.toList commitSuffix

/-- `obj['Key'].endswith('/')`: a zero-byte folder placeholder. -/
def isFolderKey (k : String) : Bool := pyEndsWith k.toList ['/']

/-- `FIVE_GB = 5 * 1024 * 1024 * 1024`. -/
def FIVE_GB : Nat := 5 * 1024 * 1024 * 1024

/-- The external effects consumed by the scan loop: `download_file` for one
key (an `Except.error` models the download raising), and `clamscan`, the
scanner process result `(returncode, stdout, stderr)` for one key. -/
structure ScanEffects where
  download_file : String → Except (List Char) Unit
  clamscan : String → Int × List Char × List Char

/-- `run_scan(local_file_path)` for the file belonging to `k`. -/
def runScanOn (fx : ScanEffects) (k : String) :
    Except (List Char) (String × Option (List Char)) :=
  run_scan (fx.clamscan k).1 (fx.clamscan k).2.1 (fx.clamscan k).2.2

/-- The observable result of one iteration of the scan loop for one key:
the verdict recorded in `scan_results_map`, whether the scratch copy was
downloaded, and whether `os.remove(local_file_path)` ran. -/
structure KeyScanResult where
  verdict : Verdict
  downloaded : Bool
  scratchRemoved : Bool
deriving DecidableEq

/-- One iteration of the scan loop (handler lines 250-278): commit markers
are auto-classified clean without download or scan; otherwise the key is
downloaded and scanned, and any exception from either step is caught for
this key alone and recorded as an error verdict.  `os.remove` runs only on
the non-raising path, after the verdict is recorded. -/
def scanOneKey (fx : ScanEffects) (k : String) : KeyScanResult :=
  if isCommitKey k then ⟨("clean", none), false, false⟩
  else
    match fx.download_file k with
    | .error e => ⟨("error", some e), false, false⟩
    | .ok _ =>
      match runScanOn fx k with
      | .ok v => ⟨v, true, true⟩
      | .error e => ⟨("error", some e), true, false⟩

/-- `files_to_process`: the listed objects whose key does not end in `/`,
with their sizes, in listing order. -/
def files_to_process (listing : List (String × Nat)) : List (String × Nat) :=
  listing.filter (fun o => !isFolderKey o.1)

/-- `folder_keys_to_move`: the listed folder placeholder keys. -/
def folder_keys_to_move (listing : List (String × Nat)) : List String :=
  (listing.filter (fun o => isFolderKey o.1)).map Prod.fst

/-- `scan_results_map` as it stands after the scan loop. -/
def scan_results_map (fx : ScanEffects) (files : List (String × Nat)) :
    List (String × Verdict) :=
  files.map (fun f => (f.1, (scanOneKey fx f.1).verdict))

/-- The statuses that force the batch to quarantine. -/
def isInfectedOrError (v : Verdict) : Bool := v.1 = "infected" || v.1 = "error"

/-- `is_batch_infected_or_error` as it stands after the scan loop, before
the size sweep. -/
def scan_loop_flag (fx : ScanEffects) (files : List (String × Nat)) : Bool :=
  (scan_results_map fx files).any (fun kv => isInfectedOrError kv.2)

/-- The detail recorded by the size sweep. -/
def oversizeDetail : List Char := "File exceeds 5GB copy limit".toList

/-- `scan_results_map` after the size sweep (handler lines 280-285): when no
scan verdict already forces quarantine, every file of `files_to_process`
whose size exceeds `FIVE_GB` has its verdict overwritten with an error. -/
def final_results_map (fx : ScanEffects) (files : List (String × Nat)) :
    List (String × Verdict) :=
  if scan_loop_flag fx files then scan_results_map fx files
  else files.map (fun f =>
    (f.1, if f.2 > FIVE_GB then (("error", some oversizeDetail) : Verdict)
          else (scanOneKey fx f.1).verdict))

/-- `is_batch_infected_or_error` after the size sweep. -/
def is_batch_infected_or_error (fx : ScanEffects) (files : List (String × Nat)) : Bool :=
  if scan_loop_flag fx files then true
  else files.any (fun f => decide (f.2 > FIVE_GB))

/-- The three bucket names from the environment. -/
structure Buckets where
  landing : String
  processed : String
  quarantine : String

/-- The batch-level decision, derived (not stored). -/
inductive BatchDecision
  | Processed
  | Quarantine
deriving DecidableEq

/-- The decision taken by the handler for a trigger whose listing is
`listing`: an empty `files_to_process` short-circuits to the clean path,
otherwise the aggregated flag decides. -/
def batchDecision (fx : ScanEffects) (listing : List (String × Nat)) : BatchDecision :=
  if (files_to_process listing).isEmpty then .Processed
  else if is_batch_infected_or_error fx (files_to_process listing) then .Quarantine
  else .Processed

/-- Where one batch member is sent. -/
inductive RouteOutcome
  | movedTo (bucket : String)
  | deleted
deriving DecidableEq

/-- The routing performed by the handler after the decision, one entry per
batch member in processing order: the empty batch moves only the trigger key
to `processed` and deletes the folder placeholders; a quarantined batch
moves every file of `final_results_map` and every folder placeholder to
`quarantine`; a clean batch moves every file to `processed` and deletes the
folder placeholders. -/
def routePlan (b : Buckets) (fx : ScanEffects) (trigger : String)
    (listing : List (String × Nat)) : List (String × RouteOutcome) :=
  if (files_to_process listing).isEmpty then
    (trigger, .movedTo b.processed)
      :: (folder_keys_to_move listing).map (fun k => (k, .deleted))
  else if is_batch_infected_or_error fx (files_to_process listing) then
    (final_results_map fx (files_to_process listing)).map
        (fun kv => (kv.1, .movedTo b.quarantine))
      ++ (folder_keys_to_move listing).map (fun k => (k, .movedTo b.quarantine))
  else
    (final_results_map fx (files_to_process listing)).map
        (fun kv => (kv.1, .movedTo b.processed))
      ++ (folder_keys_to_move listing).map (fun k => (k, .deleted))

/-! ## Concrete fixtures for witnesses and counterexamples -/

/-- Effects under which every download succeeds and every scan exits 0. -/
def fxClean : ScanEffects :=
  ⟨fun _ => .ok (), fun _ => (0, [], [])⟩

/-- Effects under which every download succeeds and every scan reports an
EICAR hit with exit status 1. -/
def fxInfected : ScanEffects :=
  ⟨fun _ => .ok (), fun _ => (1, "f: Eicar FOUND".toList, [])⟩

/-- Effects under which every download succeeds and every scan exits 2
(`run_scan` raises). -/
def fxCrash : ScanEffects :=
  ⟨fun _ => .ok (), fun _ => (2, [], "boom".toList)⟩

/-- Effects under which the download of `bad.bin` raises. -/
def fxDownloadFail : ScanEffects :=
  ⟨fun k => if k = "p/bad.bin" then .error "connection reset".toList else .ok (),
   fun _ => (0, [], [])⟩

/-- A concrete bucket configuration. -/
def demoBuckets : Buckets := ⟨"landing", "processed", "quarantine"⟩

/-- Router effects under which `delete_object` on `k1` raises `NoSuchKey`,
`copy_object` on `k3` raises a throttling error, and everything else
succeeds. -/
def fxRouter : RouterEffects :=
  ⟨fun k => if k = "k3" then .error ⟨"Throttling"⟩ else .ok (),
   fun k => if k = "k1" then .error ⟨"NoSuchKey"⟩ else .ok (),
   fun _ => .ok [],
   fun _ _ => .ok ()⟩

end CatsClamav

namespace CatsClamav

/-- `List.findSome?` returns the head of the `filterMap`. -/
theorem findSome?_eq_head?_filterMap {α β : Type} (f : α → Option β) :
    ∀ l : List α, l.findSome? f = (l.filterMap f).head? := by
  intro l
  induction l with
  | nil => rfl
  | cons a l ih =>
    rw [List.findSome?_cons, List.filterMap_cons]
    cases h : f a with
    | none => exact ih
    | some b => rfl

/-- The per-line parse of the source loop agrees with the amended claim's
per-line description. -/
theorem parseFoundLine_eq_get? (line : List Char) :
    parseFoundLine line =
      ((pySplit (": ".toList) line).get? 1).map
        (fun seg => pyStrip (pyReplace foundMarker [] seg)) := by
  unfold parseFoundLine
  cases h : pySplit (": ".toList) line with
  | nil => simp [h]
  | cons x xs =>
    cases xs with
    | nil => simp
    | cons y ys => simp

/-- The code's extraction equals the amended claim's extraction. -/
theorem extractVirusName_eq_spec (stdout : List Char) :
    extractVirusName stdout = specVirusNameAmended stdout := by
  unfold extractVirusName specVirusNameAmended
  rw [findSome?_eq_head?_filterMap]
  have hcongr :
      (pySplit ['\n'] stdout).filterMap (fun line =>
        if pyEndsWith (pyStrip line) foundMarker then parseFoundLine line else none) =
      (pySplit ['\n'] stdout).filterMap (fun line =>
        if pyEndsWith (pyStrip line) foundMarker then
          ((pySplit (": ".toList) line).get? 1).map
            (fun seg => pyStrip (pyReplace foundMarker [] seg))
        else none) := by
    apply List.filterMap_congr
    intro line _
    rw [parseFoundLine_eq_get?]
  rw [hcongr, List.headD_eq_head?]
  generalize ((pySplit ['\n'] stdout).filterMap (fun line =>
      if pyEndsWith (pyStrip line) foundMarker then
        ((pySplit (": ".toList) line).get? 1).map
          (fun seg => pyStrip (pyReplace foundMarker [] seg))
      else none)).head? = o
  cases o <;> rfl

/-! ## Helper lemmas -/

/-- Replacing a single character is a pointwise map (given enough fuel). -/
theorem pyReplaceAux_singleton (a b : Char) :
    ∀ (fuel : Nat) (s : List Char), s.length ≤ fuel →
      pyReplaceAux [a] [b] fuel s = s.map (fun c => if c = a then b else c) := by
  intro fuel
  induction fuel with
  | zero =>
    intro s h
    cases s with
    | nil => rfl
    | cons c rest => simp at h
  | succ fuel ih =>
    intro s h
    cases s with
    | nil => rfl
    | cons c rest =>
      have hr : rest.length ≤ fuel := by
        simp only [List.length_cons] at h
        omega
      by_cases hc : c = a
      · subst hc
        have hcond : ([c] : List Char) ≠ [] ∧ [c].isPrefixOf (c :: rest) = true := by
          refine ⟨by simp, ?_⟩
          simp [List.isPrefixOf]
        simp only [pyReplaceAux, if_pos hcond, List.map_cons, if_pos rfl]
        simp only [List.length_cons, List.length_nil, Nat.add_sub_cancel, List.drop_zero]
        rw [ih rest hr]
        rfl
      · have hcond : ¬(([a] : List Char) ≠ [] ∧ [a].isPrefixOf (c :: rest) = true) := by
          rintro ⟨-, hpre⟩
          simp [List.isPrefixOf] at hpre
          exact hc hpre.symm
        simp only [pyReplaceAux, if_neg hcond, List.map_cons, if_neg hc]
        rw [ih rest hr]

/-- Python `replace` with a single-character pattern is a pointwise map. -/
theorem pyReplace_singleton (a b : Char) (s : List Char) :
    pyReplace [a] [b] s = s.map (fun c => if c = a then b else c) :=
  pyReplaceAux_singleton a b s.length s le_rfl

/-- `sanitizeDetail` leaves no newline and no carriage return behind. -/
theorem sanitizeDetail_no_line_breaks (d : List Char) :
    '\n' ∉ sanitizeDetail d ∧ '\r' ∉ sanitizeDetail d := by
  unfold sanitizeDetail
  rw [pyReplace_singleton, pyReplace_singleton]
  constructor <;>
    · intro hmem
      rw [List.mem_map] at hmem
      obtain ⟨c, hc, hceq⟩ := hmem
      rw [List.mem_map] at hc
      obtain ⟨c0, _, hc0⟩ := hc
      subst hc0
      split_ifs at hceq <;> simp_all

/-- In a list of pairs with pairwise-distinct first components, filtering on
the key of a member isolates exactly that member. -/
theorem filter_key_eq_of_nodupKeys {β : Type} (l : List (String × β)) (a : String × β)
    (h : (l.map Prod.fst).Nodup) (ha : a ∈ l) :
    l.filter (fun t => decide (t.1 = a.1)) = [a] := by
  induction l with
  | nil => cases ha
  | cons b l ih =>
    rw [List.map_cons, List.nodup_cons] at h
    rcases List.mem_cons.mp ha with heq | hmem
    · subst heq
      rw [List.filter_cons]
      simp only [decide_eq_true_eq, if_pos rfl]
      have hnil : l.filter (fun t => decide (t.1 = a.1)) = [] := by
        rw [List.filter_eq_nil_iff]
        intro t ht
        simp only [decide_eq_true_eq]
        intro hteq
        exact h.1 (hteq ▸ List.mem_map_of_mem Prod.fst ht)
      rw [hnil]
      simp
    · have hb : ¬(b.1 = a.1) := by
        intro heq
        exact h.1 (heq ▸ List.mem_map_of_mem Prod.fst hmem)
      rw [List.filter_cons]
      simp only [decide_eq_true_eq, if_neg hb]
      exact ih h.2 hmem

/-- The scan loop records verdicts against exactly the keys of
`files_to_process`, in order. -/
theorem scan_results_map_keys (fx : ScanEffects) (files : List (String × Nat)) :
    (scan_results_map fx files).map Prod.fst = files.map Prod.fst := by
  unfold scan_results_map
  rw [List.map_map]
  rfl

/-- The size sweep preserves the key structure of the result map. -/
theorem final_results_map_keys (fx : ScanEffects) (files : List (String × Nat)) :
    (final_results_map fx files).map Prod.fst = files.map Prod.fst := by
  unfold final_results_map
  split
  · exact scan_results_map_keys fx files
  · rw [List.map_map]
    rfl

/-- The aggregated flag is set iff some scan verdict is infected or errored,
or some listed file exceeds the copy size limit. -/
theorem is_batch_infected_or_error_iff (fx : ScanEffects) (files : List (String × Nat)) :
    is_batch_infected_or_error fx files = true ↔
      ((∃ kv ∈ scan_results_map fx files, isInfectedOrError kv.2 = true) ∨
        (∃ f ∈ files, f.2 > FIVE_GB)) := by
  unfold is_batch_infected_or_error
  split
  case isTrue h =>
    unfold scan_loop_flag at h
    rw [List.any_eq_true] at h
    exact iff_of_true rfl (Or.inl h)
  case isFalse h =>
    simp only [List.any_eq_true, decide_eq_true_eq]
    constructor
    · intro hx
      exact Or.inr hx
    · rintro (hx | hx)
      · exact absurd (by unfold scan_loop_flag; rw [List.any_eq_true]; exact hx) h
      · exact hx

/-- Every route plan sends its moved members to one single bucket. -/
theorem routePlan_single_destination (b : Buckets) (fx : ScanEffects) (trigger : String)
    (listing : List (String × Nat)) :
    ∃ dest, ∀ m ∈ routePlan b fx trigger listing,
      m.2 = RouteOutcome.movedTo dest ∨ m.2 = RouteOutcome.deleted := by
  unfold routePlan
  split
  · refine ⟨b.processed, ?_⟩
    intro m hm
    rcases List.mem_cons.mp hm with heq | hm
    · subst heq
      exact Or.inl rfl
    · rw [List.mem_map] at hm
      obtain ⟨k, -, hk⟩ := hm
      subst hk
      exact Or.inr rfl
  · split
    · refine ⟨b.quarantine, ?_⟩
      intro m hm
      rcases List.mem_append.mp hm with hm | hm <;>
        · rw [List.mem_map] at hm
          obtain ⟨k, -, hk⟩ := hm
          subst hk
          exact Or.inl rfl
    · refine ⟨b.processed, ?_⟩
      intro m hm
      rcases List.mem_append.mp hm with hm | hm
      · rw [List.mem_map] at hm
        obtain ⟨k, -, hk⟩ := hm
        subst hk
        exact Or.inl rfl
      · rw [List.mem_map] at hm
        obtain ⟨k, -, hk⟩ := hm
        subst hk
        exact Or.inr rfl

/-- The keys of the `additional_tags` dict, by case on the verdict. -/
theorem additionalTags_keys (status : String) (scan_time : List Char)
    (detail : Option (List Char)) :
    (additionalTags status scan_time detail).map Prod.fst = ["scan-result", "scan-time"] ∨
    (additionalTags status scan_time detail).map Prod.fst =
      ["scan-result", "scan-time", "virus-name"] ∨
    (additionalTags status scan_time detail).map Prod.fst =
      ["scan-result", "scan-time", "scan-error"] := by
  unfold additionalTags
  split_ifs <;> simp

/-- The new scan tags never contain a duplicate key. -/
theorem additionalTags_keys_nodup (status : String) (scan_time : List Char)
    (detail : Option (List Char)) :
    ((additionalTags status scan_time detail).map Prod.fst).Nodup := by
  rcases additionalTags_keys status scan_time detail with h | h | h <;> rw [h] <;> decide

/-- The merge step is idempotent: merging the same new tags twice is the
same as merging them once. -/
theorem mergeTags_idem (tags add : List Tag) :
    mergeTags (mergeTags tags add) add = mergeTags tags add := by
  unfold mergeTags
  rw [List.filter_append]
  have h1 : (tags.filter (fun t => decide (t.1 ∉ add.map Prod.fst))).filter
      (fun t => decide (t.1 ∉ add.map Prod.fst)) =
      tags.filter (fun t => decide (t.1 ∉ add.map Prod.fst)) := by
    rw [List.filter_filter]
    simp only [Bool.and_self]
  have h2 : add.filter (fun t => decide (t.1 ∉ add.map Prod.fst)) = [] := by
    rw [List.filter_eq_nil_iff]
    intro a ha
    simp only [decide_eq_true_eq]
    exact not_not_intro (List.mem_map_of_mem Prod.fst ha)
  rw [h1, h2, List.append_nil]

/-- The merge result has no duplicate keys when neither input has. -/
theorem mergeTags_nodupKeys (tags add : List Tag) (h1 : (tags.map Prod.fst).Nodup)
    (h2 : (add.map Prod.fst).Nodup) : ((mergeTags tags add).map Prod.fst).Nodup := by
  unfold mergeTags
  rw [List.map_append]
  apply List.Nodup.append
  · exact List.Nodup.sublist (List.Sublist.map Prod.fst (List.filter_sublist tags)) h1
  · exact h2
  · intro x hx1 hx2
    rw [List.mem_map] at hx1
    obtain ⟨t, ht, rfl⟩ := hx1
    rw [List.mem_filter] at ht
    have hnot := ht.2
    simp only [decide_eq_true_eq] at hnot
    exact hnot hx2

/-- Pre-existing tags with non-colliding keys survive the merge. -/
theorem mergeTags_preserves (tags add : List Tag) (t : Tag) (ht : t ∈ tags)
    (hk : t.1 ∉ add.map Prod.fst) : t ∈ mergeTags tags add := by
  unfold mergeTags
  apply List.mem_append_left
  rw [List.mem_filter]
  exact ⟨ht, decide_eq_true hk⟩

/-- Every new tag occurs exactly once in the merge result: colliding old
tags are dropped, not duplicated. -/
theorem mergeTags_overwrites (tags add : List Tag) (h2 : (add.map Prod.fst).Nodup)
    (a : Tag) (ha : a ∈ add) :
    (mergeTags tags add).filter (fun t => decide (t.1 = a.1)) = [a] := by
  unfold mergeTags
  rw [List.filter_append]
  have hkeep : (tags.filter (fun t => decide (t.1 ∉ add.map Prod.fst))).filter
      (fun t => decide (t.1 = a.1)) = [] := by
    rw [List.filter_eq_nil_iff]
    intro t ht
    rw [List.mem_filter] at ht
    have hnot := ht.2
    simp only [decide_eq_true_eq] at hnot ⊢
    intro heq
    exact hnot (heq ▸ List.mem_map_of_mem Prod.fst ha)
  rw [hkeep, List.nil_append]
  exact filter_key_eq_of_nodupKeys add a h2 ha

/-- The two always-present entries of `additional_tags` never carry the
`scan-error` key. -/
theorem scan_error_not_in_base (status : String) (scan_time : List Char) (v : List Char) :
    ("scan-error", v) ∉ ([("scan-result", status.toList), ("scan-time", scan_time)] : List Tag) := by
  intro h
  rcases List.mem_cons.mp h with heq | h
  · exact (show ¬("scan-error" : String) = "scan-result" by decide) (congrArg Prod.fst heq)
  · rcases List.mem_cons.mp h with heq | h
    · exact (show ¬("scan-error" : String) = "scan-time" by decide) (congrArg Prod.fst heq)
    · exact absurd h (List.not_mem_nil _)

/-! ## Claim theorems -/

/-- Claim C4, counterexample: the claim reads the signature as the text
between the *first* colon-space and the `" FOUND"` marker, but on the report
line `"a: b: c FOUND"` (two colon-spaces) the code takes only the text
between the first and second colon-space: `run_scan` returns `"b"` where the
claim's rule yields `"b: c"`. -/
theorem c4_counterexample :
    run_scan 1 "a: b: c FOUND".toList [] = .ok ("infected", some "b".toList) ∧
    specVirusName "a: b: c FOUND".toList = "b: c".toList ∧
    ("b".toList : List Char) ≠ "b: c".toList :=
  ⟨rfl, by decide, by decide⟩

/-- Claim C4 (amended): a zero scanner exit status yields verdict clean; an
exit status of exactly one yields verdict infected with the signature name
obtained by scanning the report's lines in order — for each line whose
whitespace-stripped form ends in the case-sensitive marker `" FOUND"`, the
line is split on colon-space and, when it has at least two segments, the
name is the second segment with every occurrence of `" FOUND"` removed and
surrounding whitespace stripped; matching lines without a colon-space are
skipped, and the placeholder `"Unknown"` is used when no line parses — and
any other exit status raises an exception rather than returning a verdict. -/
theorem c4_scan_verdicts (exit_code : Int) (stdout stderr : List Char) :
    (exit_code = 0 → run_scan exit_code stdout stderr = .ok ("clean", none)) ∧
    (exit_code = 1 → run_scan exit_code stdout stderr =
        .ok ("infected", some (specVirusNameAmended stdout))) ∧
    (exit_code ≠ 0 → exit_code ≠ 1 →
        ∃ msg, run_scan exit_code stdout stderr = .error msg) := by
  refine ⟨?_, ?_, ?_⟩
  · intro h
    subst h
    rfl
  · intro h
    subst h
    rw [show run_scan 1 stdout stderr = .ok ("infected", some (extractVirusName stdout)) from rfl,
      extractVirusName_eq_spec]
  · intro h0 h1
    refine ⟨"ClamAV scan error. Exit code: ".toList ++ (toString exit_code).toList
      ++ ". STDERR: ".toList ++ stderr, ?_⟩
    unfold run_scan
    rw [if_neg h0, if_neg h1]

/-- Witness for C4: a concrete infected report evaluated through the
theorem. -/
theorem c4_scan_verdicts_witness :
    run_scan 1 "f: Eicar FOUND".toList [] = .ok ("infected", some "Eicar".toList) := by
  have h := (c4_scan_verdicts 1 ("f: Eicar FOUND".toList) []).2.1 rfl
  rw [h]
  rfl

/-- Claim C7: the tag merge is idempotent (merging the same verdict twice
equals merging it once), produces no duplicate keys, preserves pre-existing
tags with non-colliding keys, and overwrites (not duplicates) colliding
keys. -/
theorem c7_tag_merge_idempotent (tags : List Tag) (status : String)
    (scan_time : List Char) (detail : Option (List Char))
    (hnd : (tags.map Prod.fst).Nodup) :
    mergeTags (mergeTags tags (additionalTags status scan_time detail))
        (additionalTags status scan_time detail) =
      mergeTags tags (additionalTags status scan_time detail) ∧
    ((mergeTags tags (additionalTags status scan_time detail)).map Prod.fst).Nodup ∧
    (∀ t ∈ tags, t.1 ∉ (additionalTags status scan_time detail).map Prod.fst →
      t ∈ mergeTags tags (additionalTags status scan_time detail)) ∧
    (∀ a ∈ additionalTags status scan_time detail,
      (mergeTags tags (additionalTags status scan_time detail)).filter
          (fun t => decide (t.1 = a.1)) = [a]) :=
  ⟨mergeTags_idem _ _,
   mergeTags_nodupKeys _ _ hnd (additionalTags_keys_nodup _ _ _),
   fun t ht hk => mergeTags_preserves _ _ t ht hk,
   fun a ha => mergeTags_overwrites _ _ (additionalTags_keys_nodup _ _ _) a ha⟩

/-- Witness for C7: a concrete pre-existing tag set and infected verdict. -/
theorem c7_tag_merge_idempotent_witness :
    (([("owner", "alice".toList)] : List Tag).map Prod.fst).Nodup ∧
    mergeTags
        (mergeTags [("owner", "alice".toList)]
          (additionalTags "infected" "t0".toList (some "Eicar".toList)))
        (additionalTags "infected" "t0".toList (some "Eicar".toList)) =
      mergeTags [("owner", "alice".toList)]
        (additionalTags "infected" "t0".toList (some "Eicar".toList)) :=
  ⟨by decide,
   (c7_tag_merge_idempotent [("owner", "alice".toList)] "infected" "t0".toList
      (some "Eicar".toList) (by decide)).1⟩

/-- Claim C8: for every error detail string, the `scan-error` tag value
produced by the tag merger contains no newline and no carriage return and
is at most 250 characters long. -/
theorem c8_scan_error_tag_safe (status : String) (scan_time : List Char)
    (detail : List Char) (v : List Char)
    (hv : ("scan-error", v) ∈ additionalTags status scan_time (some detail)) :
    '\n' ∉ v ∧ '\r' ∉ v ∧ v.length ≤ 250 := by
  unfold additionalTags at hv
  split_ifs at hv with h1 h2
  · exfalso
    rcases List.mem_append.mp hv with hb | hb
    · exact scan_error_not_in_base status scan_time v hb
    · rcases List.mem_cons.mp hb with heq | hb
      · exact (show ¬("scan-error" : String) = "virus-name" by decide) (congrArg Prod.fst heq)
      · exact absurd hb (List.not_mem_nil _)
  · have hval : v = (sanitizeDetail detail).take 250 := by
      rcases List.mem_append.mp hv with hb | hb
      · exact absurd hb (scan_error_not_in_base status scan_time v)
      · rcases List.mem_cons.mp hb with heq | hb
        · exact congrArg Prod.snd heq
        · exact absurd hb (List.not_mem_nil _)
    subst hval
    refine ⟨?_, ?_, ?_⟩
    · intro hmem
      exact (sanitizeDetail_no_line_breaks detail).1 (List.take_subset _ _ hmem)
    · intro hmem
      exact (sanitizeDetail_no_line_breaks detail).2 (List.take_subset _ _ hmem)
    · rw [List.length_take]
      exact min_le_left _ _
  · exact absurd hv (scan_error_not_in_base status scan_time v)

/-- Witness for C8: a 261-character detail starting with a newline is
written as a 250-character, newline-free tag value. -/
theorem c8_scan_error_tag_safe_witness :
    '\n' ∉ (' ' :: List.replicate 249 'z') ∧ '\r' ∉ (' ' :: List.replicate 249 'z') ∧
    (' ' :: List.replicate 249 'z').length ≤ 250 :=
  c8_scan_error_tag_safe "error" [] ('\n' :: List.replicate 260 'z')
    (' ' :: List.replicate 249 'z') (by decide)

/-- Claim C9 (code-bug evidence): when the download succeeds and the scan
raises (scanner exit status 2), the error verdict is recorded but
`os.remove` is skipped, so the downloaded scratch copy is left behind — in
contrast with the non-raising path, where it is removed. -/
theorem c9_scratch_file_leak :
    (scanOneKey fxCrash "p/a.bin").downloaded = true ∧
    (scanOneKey fxCrash "p/a.bin").scratchRemoved = false ∧
    (scanOneKey fxCrash "p/a.bin").verdict.1 = "error" ∧
    (scanOneKey fxClean "p/a.bin").scratchRemoved = true := by
  decide

/-- Claim C10: when reading the existing tag set fails with any storage
error (not only a missing tag set), `update_tags` proceeds as if the
existing tag set were empty, so the written tag set is exactly the new scan
tags and every pre-existing tag is discarded. -/
theorem c10_read_failure_discards_tags (e : S3Err) (status : String)
    (scan_time : List Char) (detail : Option (List Char))
    (_hcode : e.code ≠ "NoSuchTaggingSet") :
    update_tags_written (.error e) status scan_time detail =
      additionalTags status scan_time detail := rfl

/-- Witness for C10: a throttling error on the read. -/
theorem c10_read_failure_discards_tags_witness :
    (⟨"Throttling"⟩ : S3Err).code ≠ "NoSuchTaggingSet" ∧
    update_tags_written (.error ⟨"Throttling"⟩) "clean" "t0".toList none =
      additionalTags "clean" "t0".toList none :=
  ⟨by decide, c10_read_failure_discards_tags ⟨"Throttling"⟩ "clean" "t0".toList none (by decide)⟩

/-- Claim C2: every exception during a key's download or scan is caught at
that key's granularity — it is recorded as an error verdict carrying the
exception message for that key, sibling keys still get their own verdicts,
and after the loop the result map has exactly one verdict entry per file
key. -/
theorem c2_per_key_error_isolation (fx : ScanEffects) (files : List (String × Nat))
    (hnd : (files.map Prod.fst).Nodup) :
    ((scan_results_map fx files).map Prod.fst = files.map Prod.fst) ∧
    (∀ k ∈ files.map Prod.fst,
      ((scan_results_map fx files).filter (fun kv => decide (kv.1 = k))).length = 1) ∧
    (∀ f ∈ files, isCommitKey f.1 = false → ∀ e,
      (fx.download_file f.1 = .error e ∨
        (fx.download_file f.1 = .ok () ∧ runScanOn fx f.1 = .error e)) →
      (f.1, (("error", some e) : Verdict)) ∈ scan_results_map fx files) ∧
    (∀ f ∈ files, (f.1, (scanOneKey fx f.1).verdict) ∈ scan_results_map fx files) := by
  refine ⟨scan_results_map_keys fx files, ?_, ?_, ?_⟩
  · intro k hk
    have hkeys : ((scan_results_map fx files).map Prod.fst).Nodup := by
      rw [scan_results_map_keys]
      exact hnd
    rw [← scan_results_map_keys fx files] at hk
    rw [List.mem_map] at hk
    obtain ⟨a, ha, rfl⟩ := hk
    rw [filter_key_eq_of_nodupKeys (scan_results_map fx files) a hkeys ha]
    rfl
  · intro f hf hcommit e hexc
    have hverd : (scanOneKey fx f.1).verdict = (("error", some e) : Verdict) := by
      unfold scanOneKey
      rw [if_neg (by rw [hcommit]; exact Bool.false_ne_true)]
      rcases hexc with hdl | ⟨hdl, hscan⟩
      · rw [hdl]
      · rw [hdl, hscan]
    exact hverd ▸ List.mem_map_of_mem (fun g => (g.1, (scanOneKey fx g.1).verdict)) hf
  · intro f hf
    exact List.mem_map_of_mem (fun g => (g.1, (scanOneKey fx g.1).verdict)) hf

/-- Witness for C2: one key's download raises while its siblings scan
clean; the failing key gets the error verdict with the exception message. -/
theorem c2_per_key_error_isolation_witness :
    ("p/bad.bin", (("error", some "connection reset".toList) : Verdict)) ∈
      scan_results_map fxDownloadFail
        [("p/_commit.json", 3), ("p/bad.bin", 7), ("p/good.txt", 5)] := by
  have h := (c2_per_key_error_isolation fxDownloadFail
      [("p/_commit.json", 3), ("p/bad.bin", 7), ("p/good.txt", 5)] (by decide)).2.2.1
  exact h ("p/bad.bin", 7) (by decide) (by decide) ("connection reset".toList) (Or.inl rfl)

/-- Claim C3: the router handles each key by copy, then delete, then tag; a
not-found storage error during the copy or the delete is classified as
benign concurrent completion, any other storage error is fatal for that key
alone, and in every case the loop yields an outcome for every key of the
map — it never raises. -/
theorem c3_router_best_effort (fx : RouterEffects) (scan_time : List Char)
    (m : List (String × Verdict)) :
    ((move_and_tag_files fx scan_time m).map Prod.fst = m.map Prod.fst) ∧
    (∀ kv ∈ m, (kv.1, moveOneKey fx scan_time kv.1 kv.2) ∈ move_and_tag_files fx scan_time m) ∧
    (∀ key v e, fx.copy_object key = .error e → isNotFoundCode e = true →
      moveOneKey fx scan_time key v = .skippedConcurrent e.code) ∧
    (∀ key v e, fx.copy_object key = .ok () → fx.delete_object key = .error e →
      isNotFoundCode e = true → moveOneKey fx scan_time key v = .skippedConcurrent e.code) ∧
    (∀ key v e, moveOneKeyOps fx scan_time key v = .error e → isNotFoundCode e = false →
      moveOneKey fx scan_time key v = .fatal e.code) ∧
    (∀ key v, fx.copy_object key = .ok () → fx.delete_object key = .ok () →
      update_tags fx scan_time key v = .ok () → moveOneKey fx scan_time key v = .completed) := by
  refine ⟨?_, ?_, ?_, ?_, ?_, ?_⟩
  · unfold move_and_tag_files
    rw [List.map_map]
    rfl
  · intro kv hkv
    exact List.mem_map_of_mem (fun g => (g.1, moveOneKey fx scan_time g.1 g.2)) hkv
  · intro key v e hcopy hnf
    unfold moveOneKey moveOneKeyOps
    simp only [bind, Except.bind, hcopy, hnf, if_pos]
  · intro key v e hcopy hdel hnf
    unfold moveOneKey moveOneKeyOps
    simp only [bind, Except.bind, hcopy, hdel, hnf, if_pos]
  · intro key v e hops hnf
    unfold moveOneKey
    rw [hops]
    simp [hnf]
  · intro key v hcopy hdel htag
    unfold moveOneKey moveOneKeyOps
    simp only [bind, Except.bind, hcopy, hdel, htag]

/-- Witness for C3: under `fxRouter`, the key whose delete raises
`NoSuchKey` is classified as skipped concurrent completion. -/
theorem c3_router_best_effort_witness :
    moveOneKey fxRouter [] "k1" ("clean", none) = .skippedConcurrent "NoSuchKey" :=
  (c3_router_best_effort fxRouter [] []).2.2.2.1 "k1" ("clean", none) ⟨"NoSuchKey"⟩ rfl rfl rfl

/-- Claim C1, counterexample: in a clean batch the folder placeholder is
deleted, not routed to the processed destination, so "every member of the
batch, including folder placeholder keys, is routed to the single winning
destination" fails as stated. -/
theorem c1_counterexample :
    batchDecision fxClean [("p/_commit.json", 1), ("p/a.txt", 2), ("p/sub/", 0)] = .Processed ∧
    ("p/sub/", RouteOutcome.deleted) ∈
      routePlan demoBuckets fxClean "p/_commit.json"
        [("p/_commit.json", 1), ("p/a.txt", 2), ("p/sub/", 0)] ∧
    ("p/sub/", RouteOutcome.movedTo "processed") ∉
      routePlan demoBuckets fxClean "p/_commit.json"
        [("p/_commit.json", 1), ("p/a.txt", 2), ("p/sub/", 0)] := by
  decide

/-- Claim C1 (amended): the batch decision is Quarantine iff some member's
scan verdict is infected or errored or some file's size exceeds 5 GiB,
otherwise Processed; when the decision is Quarantine every member — files,
folder placeholder keys and the commit marker — is moved to the quarantine
destination; when the decision is Processed every file member including the
marker is moved to the processed destination while folder placeholders are
deleted; and members are never sent to a mix of destinations. -/
theorem c1_decision_uniform_routing (b : Buckets) (fx : ScanEffects) (trigger : String)
    (listing : List (String × Nat)) :
    (batchDecision fx listing = .Quarantine ↔
      ((∃ kv ∈ scan_results_map fx (files_to_process listing), isInfectedOrError kv.2 = true) ∨
        (∃ f ∈ files_to_process listing, f.2 > FIVE_GB))) ∧
    (batchDecision fx listing = .Quarantine →
      ∀ m ∈ routePlan b fx trigger listing, m.2 = RouteOutcome.movedTo b.quarantine) ∧
    (batchDecision fx listing = .Quarantine →
      (∀ f ∈ files_to_process listing,
        (f.1, RouteOutcome.movedTo b.quarantine) ∈ routePlan b fx trigger listing) ∧
      (∀ k ∈ folder_keys_to_move listing,
        (k, RouteOutcome.movedTo b.quarantine) ∈ routePlan b fx trigger listing)) ∧
    (batchDecision fx listing = .Processed → files_to_process listing ≠ [] →
      (∀ f ∈ files_to_process listing,
        (f.1, RouteOutcome.movedTo b.processed) ∈ routePlan b fx trigger listing) ∧
      (∀ k ∈ folder_keys_to_move listing,
        (k, RouteOutcome.deleted) ∈ routePlan b fx trigger listing)) ∧
    (∀ m ∈ routePlan b fx trigger listing, ∀ n ∈ routePlan b fx trigger listing,
      ∀ x y, m.2 = RouteOutcome.movedTo x → n.2 = RouteOutcome.movedTo y → x = y) := by
  have hnomix : ∀ m ∈ routePlan b fx trigger listing, ∀ n ∈ routePlan b fx trigger listing,
      ∀ x y, m.2 = RouteOutcome.movedTo x → n.2 = RouteOutcome.movedTo y → x = y := by
    obtain ⟨dest, hd⟩ := routePlan_single_destination b fx trigger listing
    intro m hm n hn x y hx hy
    have h1 := hd m hm
    have h2 := hd n hn
    rw [hx] at h1
    rw [hy] at h2
    rcases h1 with h1 | h1
    · rcases h2 with h2 | h2
      · rw [RouteOutcome.movedTo.injEq] at h1 h2
        rw [h1, h2]
      · exact RouteOutcome.noConfusion h2
    · exact RouteOutcome.noConfusion h1
  by_cases hempty : (files_to_process listing).isEmpty = true
  · have hnil : files_to_process listing = [] := by
      cases h : files_to_process listing with
      | nil => rfl
      | cons a l =>
        rw [h] at hempty
        exact absurd hempty (by simp)
    have hdec : batchDecision fx listing = .Processed := by
      unfold batchDecision
      rw [if_pos hempty]
    refine ⟨?_, ?_, ?_, ?_, hnomix⟩
    · rw [hdec]
      constructor
      · intro h
        exact BatchDecision.noConfusion h
      · rintro (⟨kv, hkv, -⟩ | ⟨f, hf, -⟩)
        · rw [hnil] at hkv
          exact absurd hkv (List.not_mem_nil _)
        · rw [hnil] at hf
          exact absurd hf (List.not_mem_nil _)
    · intro hq
      rw [hdec] at hq
      exact BatchDecision.noConfusion hq
    · intro hq
      rw [hdec] at hq
      exact BatchDecision.noConfusion hq
    · intro _hp hne
      exact absurd hnil hne
  · have hdec_eq : batchDecision fx listing =
        (if is_batch_infected_or_error fx (files_to_process listing) = true then
          BatchDecision.Quarantine else BatchDecision.Processed) := by
      unfold batchDecision
      rw [if_neg hempty]
    by_cases hflag : is_batch_infected_or_error fx (files_to_process listing) = true
    · have hdec : batchDecision fx listing = .Quarantine := by
        rw [hdec_eq, if_pos hflag]
      have hplan : routePlan b fx trigger listing =
          (final_results_map fx (files_to_process listing)).map
              (fun kv => (kv.1, RouteOutcome.movedTo b.quarantine))
            ++ (folder_keys_to_move listing).map
              (fun k => (k, RouteOutcome.movedTo b.quarantine)) := by
        unfold routePlan
        rw [if_neg hempty, if_pos hflag]
      refine ⟨?_, ?_, ?_, ?_, hnomix⟩
      · rw [hdec]
        exact iff_of_true rfl ((is_batch_infected_or_error_iff fx _).mp hflag)
      · intro _hq m hm
        rw [hplan] at hm
        rcases List.mem_append.mp hm with hm | hm <;>
          · rw [List.mem_map] at hm
            obtain ⟨z, -, rfl⟩ := hm
            rfl
      · intro _hq
        constructor
        · intro f hf
          rw [hplan]
          apply List.mem_append_left
          have hkey : f.1 ∈ (final_results_map fx (files_to_process listing)).map Prod.fst := by
            rw [final_results_map_keys]
            exact List.mem_map_of_mem Prod.fst hf
          rw [List.mem_map] at hkey
          obtain ⟨kv, hkv, hk⟩ := hkey
          rw [List.mem_map]
          exact ⟨kv, hkv, by rw [hk]⟩
        · intro k hk
          rw [hplan]
          apply List.mem_append_right
          exact List.mem_map.mpr ⟨k, hk, rfl⟩
      · intro hp
        rw [hdec] at hp
        exact BatchDecision.noConfusion hp
    · have hdec : batchDecision fx listing = .Processed := by
        rw [hdec_eq, if_neg hflag]
      have hplan : routePlan b fx trigger listing =
          (final_results_map fx (files_to_process listing)).map
              (fun kv => (kv.1, RouteOutcome.movedTo b.processed))
            ++ (folder_keys_to_move listing).map (fun k => (k, RouteOutcome.deleted)) := by
        unfold routePlan
        rw [if_neg hempty, if_neg hflag]
      refine ⟨?_, ?_, ?_, ?_, hnomix⟩
      · rw [hdec]
        constructor
        · intro h
          exact BatchDecision.noConfusion h
        · intro hrhs
          exact absurd ((is_batch_infected_or_error_iff fx _).mpr hrhs) hflag
      · intro hq
        rw [hdec] at hq
        exact BatchDecision.noConfusion hq
      · intro hq
        rw [hdec] at hq
        exact BatchDecision.noConfusion hq
      · intro _hp _hne
        constructor
        · intro f hf
          rw [hplan]
          apply List.mem_append_left
          have hkey : f.1 ∈ (final_results_map fx (files_to_process listing)).map Prod.fst := by
            rw [final_results_map_keys]
            exact List.mem_map_of_mem Prod.fst hf
          rw [List.mem_map] at hkey
          obtain ⟨kv, hkv, hk⟩ := hkey
          rw [List.mem_map]
          exact ⟨kv, hkv, by rw [hk]⟩
        · intro k hk
          rw [hplan]
          apply List.mem_append_right
          exact List.mem_map.mpr ⟨k, hk, rfl⟩

/-- Witness for C1: an infected batch routes its folder placeholder to the
quarantine bucket. -/
theorem c1_decision_uniform_routing_witness :
    ("p/sub/", RouteOutcome.movedTo "quarantine") ∈
      routePlan demoBuckets fxInfected "p/_commit.json"
        [("p/_commit.json", 1), ("p/evil.bin", 2), ("p/sub/", 0)] := by
  have h := (c1_decision_uniform_routing demoBuckets fxInfected "p/_commit.json"
      [("p/_commit.json", 1), ("p/evil.bin", 2), ("p/sub/", 0)]).2.2.1 (by decide)
  exact h.2 "p/sub/" (by decide)

/-- Claim C5, counterexample: the size sweep does not exclude commit-marker
keys — a commit marker with recorded size above 5 GiB is downgraded to the
oversize error verdict. -/
theorem c5_counterexample :
    isCommitKey "r/_commit.json" = true ∧
    final_results_map fxClean [("r/_commit.json", FIVE_GB + 1)] =
      [("r/_commit.json", ("error", some oversizeDetail))] := by
  decide

/-- Claim C5 (amended): commit-marker keys are auto-classified clean without
being downloaded or scanned, but they are not excluded from the size sweep:
a commit-marker key whose recorded size exceeds 5 GiB is downgraded to the
oversize error verdict like any other file. -/
theorem c5_marker_clean_but_swept (fx : ScanEffects) (files : List (String × Nat))
    (k : String) (s : Nat) (hk : isCommitKey k = true) :
    scanOneKey fx k = ⟨("clean", none), false, false⟩ ∧
    ((k, s) ∈ files → scan_loop_flag fx files = false → s > FIVE_GB →
      (k, (("error", some oversizeDetail) : Verdict)) ∈ final_results_map fx files) := by
  constructor
  · unfold scanOneKey
    rw [if_pos hk]
  · intro hmem hflag hs
    unfold final_results_map
    rw [if_neg (by rw [hflag]; exact Bool.false_ne_true)]
    exact List.mem_map.mpr ⟨(k, s), hmem, by simp [hs]⟩

/-- Witness for C5: a 5 GiB + 1 byte commit marker is both auto-classified
clean by the scan loop and swept into the error verdict. -/
theorem c5_marker_clean_but_swept_witness :
    scanOneKey fxClean "r2/_commit.json" = ⟨("clean", none), false, false⟩ ∧
    ("r2/_commit.json", (("error", some oversizeDetail) : Verdict)) ∈
      final_results_map fxClean [("r2/_commit.json", FIVE_GB + 1)] := by
  have h := c5_marker_clean_but_swept fxClean [("r2/_commit.json", FIVE_GB + 1)]
    "r2/_commit.json" (FIVE_GB + 1) (by decide)
  exact ⟨h.1, h.2 (by decide) (by decide) (by decide)⟩

/-- Claim C6, counterexample: a listing holding no non-marker data files is
not always classified Processed — an oversize commit marker forces
Quarantine, because the marker itself is a member of `files_to_process` and
of the size sweep. -/
theorem c6_counterexample :
    ([("s/_commit.json", FIVE_GB + 1)].all (fun o => isCommitKey o.1 || isFolderKey o.1)
        = true) ∧
    batchDecision fxClean [("s/_commit.json", FIVE_GB + 1)] = .Quarantine := by
  decide

/-- Claim C6 (amended): for every trigger whose batch listing yields no
non-folder keys at all (no data files, and the commit marker itself absent
from the listing), the batch is immediately classified Processed with the
commit marker as its only routed member, and every folder placeholder key
is deleted rather than copied anywhere. -/
theorem c6_empty_batch (b : Buckets) (fx : ScanEffects) (trigger : String)
    (listing : List (String × Nat)) (h : files_to_process listing = []) :
    batchDecision fx listing = .Processed ∧
    routePlan b fx trigger listing =
      (trigger, RouteOutcome.movedTo b.processed)
        :: (folder_keys_to_move listing).map (fun k => (k, RouteOutcome.deleted)) := by
  have hempty : (files_to_process listing).isEmpty = true := by
    rw [h]
    rfl
  constructor
  · unfold batchDecision
    rw [if_pos hempty]
  · unfold routePlan
    rw [if_pos hempty]

/-- Witness for C6: a listing holding only a folder placeholder. -/
theorem c6_empty_batch_witness :
    routePlan demoBuckets fxClean "t/_commit.json" [("t/sub/", 0)] =
      [("t/_commit.json", RouteOutcome.movedTo "processed"), ("t/sub/", RouteOutcome.deleted)] := by
  have h := (c6_empty_batch demoBuckets fxClean "t/_commit.json" [("t/sub/", 0)] (by decide)).2
  rw [h]
  rfl

end CatsClamav
